import Mathlib

/-
Shallow embedding of the lowfi terminal-interface module
(src/player/ui.rs) and proofs about its specification.

Machine integers are modelled as Nat; unsigned subtraction that would
underflow (a panic in debug builds, a wrap in release builds) is
modelled as a checked subtraction returning none.
-/

namespace Lowfi

/- Constants from src/player/ui.rs lines 37-45. -/

def MAX_WIDTH : Nat := 73

def FALLBACK_WIDTH : Nat := 27

def FPS : Nat := 12

def AUDIO_BAR_DURATION : Nat := 10

/-
The Volume Indicator Timer (VOLUME_TIMER in the source).
An arm event is the store of 1 performed by the input listener
(ui.rs line 109); a tick event is the body of the render loop at
ui.rs lines 140-144: increment while the value is in
[1, AUDIO_BAR_DURATION], reset to 0 once it exceeds the duration,
leave 0 unchanged.
-/

inductive TimerEv
  | arm
  | tick
deriving DecidableEq

def timerStep (c : Nat) : TimerEv → Nat
  | TimerEv.arm => 1
  | TimerEv.tick =>
      if 0 < c ∧ c ≤ AUDIO_BAR_DURATION then c + 1
      else if AUDIO_BAR_DURATION < c then 0
      else c

/- The counter after a sequence of arm/tick events, starting from 0
(the initial value of the atomic in ui.rs line 55). -/
def timerExec (evs : List TimerEv) : Nat :=
  evs.foldl timerStep 0

/-
The middle row of the rendered panel, ui.rs lines 135-138: the render
loop reads the timer first (line 131), selects the progress bar when
it reads 0 and the audio bar otherwise, and only then runs the tick
(lines 140-144).
-/

inductive MiddleRow
  | progressBar
  | audioBar
deriving DecidableEq

def selectMiddle (timer : Nat) : MiddleRow :=
  match timer with
  | 0 => MiddleRow.progressBar
  | _ + 1 => MiddleRow.audioBar

/- One render-loop iteration, restricted to the state it touches:
the middle row it draws and the timer value it leaves behind. -/
def renderIter (timer : Nat) : MiddleRow × Nat :=
  (selectMiddle timer, timerStep timer TimerEv.tick)

/- The middle rows drawn by n consecutive render iterations starting
from a given timer value. -/
def renderRun : Nat → Nat → List MiddleRow
  | _, 0 => []
  | t, n + 1 => (renderIter t).1 :: renderRun (renderIter t).2 n

/- Helper lemmas for the timer. -/

lemma timerStep_le (c : Nat) (e : TimerEv) (h : c ≤ AUDIO_BAR_DURATION + 1) :
    timerStep c e ≤ AUDIO_BAR_DURATION + 1 := by
  cases e with
  | arm => simp [timerStep, AUDIO_BAR_DURATION]
  | tick =>
      simp only [timerStep, AUDIO_BAR_DURATION] at *
      split_ifs <;> omega

lemma timerFoldl_le (l : List TimerEv) :
    ∀ c : Nat, c ≤ AUDIO_BAR_DURATION + 1 →
      l.foldl timerStep c ≤ AUDIO_BAR_DURATION + 1 := by
  induction l with
  | nil => intro c h; simpa using h
  | cons e rest ih =>
      intro c h
      simpa using ih (timerStep c e) (timerStep_le c e h)

lemma timerFoldl_tick (k : Nat) :
    ∀ c : Nat, c ≤ 11 →
      (List.replicate k TimerEv.tick).foldl timerStep c =
        if c = 0 then 0 else if c + k ≤ 11 then c + k else 0 := by
  induction k with
  | zero =>
      intro c h
      simp only [List.replicate, List.foldl_nil]
      split_ifs <;> omega
  | succ k ih =>
      intro c h
      rw [List.replicate_succ, List.foldl_cons]
      have hstep : timerStep c TimerEv.tick ≤ 11 :=
        timerStep_le c TimerEv.tick (by simpa [AUDIO_BAR_DURATION] using h)
      rw [ih (timerStep c TimerEv.tick) hstep]
      simp only [timerStep, AUDIO_BAR_DURATION]
      split_ifs <;> first | omega | contradiction

lemma timerExec_decompose (evs : List TimerEv) :
    evs = List.replicate evs.length TimerEv.tick ∨
      ∃ pre k, evs = pre ++ TimerEv.arm :: List.replicate k TimerEv.tick := by
  induction evs using List.reverseRecOn with
  | nil => left; rfl
  | append_singleton l e ih =>
      cases e with
      | arm =>
          right
          exact ⟨l, 0, by simp⟩
      | tick =>
          rcases ih with h | ⟨pre, k, h⟩
          · left
            have hlen : (l ++ [TimerEv.tick]).length = l.length + 1 := by simp
            rw [hlen, List.replicate_succ']
            rw [← h]
          · right
            refine ⟨pre, k + 1, ?_⟩
            rw [h, List.replicate_succ']
            simp

/-- C1: the Volume Indicator Timer contract. Arming always sets the
counter to 1 (also when re-arming while active); ticking from any
reachable state keeps the counter at most AUDIO_BAR_DURATION + 1 = 11;
a sequence consisting only of ticks leaves the counter at 0; after the
most recent arm followed by k ticks the counter reads k + 1 while
k ≤ 10 and 0 once k ≥ 11; and every event sequence has one of these
two shapes, so the counter is 0 only before the first arm or from the
11th tick after the most recent arm onward, and always stays within
[0, 11]. -/
theorem c1_timer_contract :
    (∀ evs : List TimerEv, timerExec evs ≤ AUDIO_BAR_DURATION + 1) ∧
    (∀ evs : List TimerEv, timerExec (evs ++ [TimerEv.arm]) = 1) ∧
    (∀ k : Nat, timerExec (List.replicate k TimerEv.tick) = 0) ∧
    (∀ (pre : List TimerEv) (k : Nat),
        timerExec (pre ++ TimerEv.arm :: List.replicate k TimerEv.tick) =
          if k ≤ AUDIO_BAR_DURATION then k + 1 else 0) ∧
    (∀ evs : List TimerEv,
        evs = List.replicate evs.length TimerEv.tick ∨
          ∃ pre k, evs = pre ++ TimerEv.arm :: List.replicate k TimerEv.tick) := by
  refine ⟨?_, ?_, ?_, ?_, timerExec_decompose⟩
  · intro evs
    exact timerFoldl_le evs 0 (by omega)
  · intro evs
    simp [timerExec, List.foldl_append, timerStep]
  · intro k
    have h := timerFoldl_tick k 0 (by omega)
    simpa [timerExec] using h
  · intro pre k
    have harm : timerExec (pre ++ [TimerEv.arm]) = 1 := by
      simp [timerExec, List.foldl_append, timerStep]
    have hsplit : pre ++ TimerEv.arm :: List.replicate k TimerEv.tick =
        (pre ++ [TimerEv.arm]) ++ List.replicate k TimerEv.tick := by
      simp
    rw [timerExec, hsplit, List.foldl_append]
    rw [show (pre ++ [TimerEv.arm]).foldl timerStep 0 = 1 from harm]
    rw [timerFoldl_tick k 1 (by omega)]
    simp only [AUDIO_BAR_DURATION]
    split_ifs <;> first | omega | contradiction

/-- C2 counterexample: arm the timer once (value 1) and run 11 render
iterations; the code draws the audio bar on all 11 iterations — in
particular the 11th iteration, which reads timer value 11 ≠ 0, draws
the audio bar, not the progress bar claimed. -/
theorem c2_render_counterexample :
    renderRun 1 11 = List.replicate 11 MiddleRow.audioBar ∧
    ((renderRun 1 11)[10]? == some MiddleRow.progressBar) = false := by
  decide

/-- C2 amended: with the timer armed once (value 1), 12 consecutive
render iterations draw the audio bar on iterations 1 through 11 and
the progress bar again on iteration 12; in general an iteration draws
the progress bar exactly when the timer value it reads (before
ticking) is 0 and the audio bar exactly when it is non-zero. -/
theorem c2_render_amended :
    renderRun 1 12 =
      List.replicate 11 MiddleRow.audioBar ++ [MiddleRow.progressBar] ∧
    (renderIter 0).1 = MiddleRow.progressBar ∧
    (∀ t : Nat, (renderIter (t + 1)).1 = MiddleRow.audioBar) := by
  refine ⟨by decide, rfl, ?_⟩
  intro t
  rfl

/-
Input events, ui.rs lines 58-114. Only the key events matter; every
non-key event hits the catch-all and the loop continues. Volume deltas
are f32 literals in the source; every literal is a multiple of 0.01,
so they are embedded exactly as integer hundredths.
-/

inductive Messages
  | quit
  | next
  | playPause
  | changeVolume (centiDelta : Int)
deriving DecidableEq

inductive MediaKeyCode
  | play
  | pause
  | playPause
  | reverse
  | stop
  | fastForward
  | rewind
  | trackNext
  | trackPrevious
  | record
  | lowerVolume
  | raiseVolume
  | muteVolume
deriving DecidableEq

structure KeyModifiers where
  shift : Bool
  control : Bool
  alt : Bool
deriving DecidableEq

def KeyModifiers.CONTROL : KeyModifiers := ⟨false, true, false⟩

def noMods : KeyModifiers := ⟨false, false, false⟩

inductive KeyCode
  | up
  | right
  | down
  | left
  | char (c : Char)
  | media (m : MediaKeyCode)
  | otherKey
deriving DecidableEq

structure KeyEvent where
  code : KeyCode
  modifiers : KeyModifiers
deriving DecidableEq

/- Rust char::to_ascii_lowercase, used at ui.rs line 72. -/
def toAsciiLowercase (c : Char) : Char :=
  if 'A' ≤ c ∧ c ≤ 'Z' then Char.ofNat (c.toNat + 32) else c

/- The event-to-message mapping of ui.rs lines 66-104; none models the
catch-all arms whose body is `continue`. -/
def messageForEvent (event : KeyEvent) : Option Messages :=
  match event.code with
  | KeyCode.up => some (Messages.changeVolume 10)
  | KeyCode.right => some (Messages.changeVolume 1)
  | KeyCode.down => some (Messages.changeVolume (-10))
  | KeyCode.left => some (Messages.changeVolume (-1))
  | KeyCode.char character =>
      if toAsciiLowercase character = 'c' ∧ event.modifiers = KeyModifiers.CONTROL then
        some Messages.quit
      else if toAsciiLowercase character = 'q' then
        some Messages.quit
      else if toAsciiLowercase character = 's' ∨ toAsciiLowercase character = 'n' then
        some Messages.next
      else if toAsciiLowercase character = 'p' then
        some Messages.playPause
      else if toAsciiLowercase character = '+' ∨ toAsciiLowercase character = '=' then
        some (Messages.changeVolume 10)
      else if toAsciiLowercase character = '-' ∨ toAsciiLowercase character = '_' then
        some (Messages.changeVolume (-10))
      else none
  | KeyCode.media m =>
      match m with
      | MediaKeyCode.play => some Messages.playPause
      | MediaKeyCode.pause => some Messages.playPause
      | MediaKeyCode.playPause => some Messages.playPause
      | MediaKeyCode.stop => some Messages.playPause
      | MediaKeyCode.trackNext => some Messages.next
      | MediaKeyCode.lowerVolume => some (Messages.changeVolume (-10))
      | MediaKeyCode.raiseVolume => some (Messages.changeVolume 10)
      | MediaKeyCode.muteVolume => some (Messages.changeVolume (-100))
      | _ => none
  | KeyCode.otherKey => none

/- The mapping table of spec section 4.4, written row by row with
first match wins; used only to compare against messageForEvent. -/
def specTableCommand (event : KeyEvent) : Option Messages :=
  match event.code with
  | KeyCode.up => some (Messages.changeVolume 10)
  | KeyCode.right => some (Messages.changeVolume 1)
  | KeyCode.down => some (Messages.changeVolume (-10))
  | KeyCode.left => some (Messages.changeVolume (-1))
  | KeyCode.char character =>
      if (toAsciiLowercase character = 'c' ∧ event.modifiers = KeyModifiers.CONTROL) ∨
          toAsciiLowercase character = 'q' then
        some Messages.quit
      else if toAsciiLowercase character = 's' ∨ toAsciiLowercase character = 'n' then
        some Messages.next
      else if toAsciiLowercase character = 'p' then
        some Messages.playPause
      else if toAsciiLowercase character = '+' ∨ toAsciiLowercase character = '=' then
        some (Messages.changeVolume 10)
      else if toAsciiLowercase character = '-' ∨ toAsciiLowercase character = '_' then
        some (Messages.changeVolume (-10))
      else none
  | KeyCode.media m =>
      match m with
      | MediaKeyCode.play => some Messages.playPause
      | MediaKeyCode.pause => some Messages.playPause
      | MediaKeyCode.playPause => some Messages.playPause
      | MediaKeyCode.stop => some Messages.playPause
      | MediaKeyCode.trackNext => some Messages.next
      | MediaKeyCode.lowerVolume => some (Messages.changeVolume (-10))
      | MediaKeyCode.raiseVolume => some (Messages.changeVolume 10)
      | MediaKeyCode.muteVolume => some (Messages.changeVolume (-100))
      | _ => none
  | KeyCode.otherKey => none

/-- C3: the input-event mapping implemented at ui.rs lines 66-104 is
total and deterministic (it is a function) and agrees with the
section 4.4 table, row order and case-insensitive character matching
included, on every key and media-key event; unlisted events map to
none, the ignore-and-continue outcome. -/
theorem c3_mapping_matches_table (e : KeyEvent) :
    messageForEvent e = specTableCommand e := by
  obtain ⟨code, mods⟩ := e
  cases code with
  | char character =>
      simp only [messageForEvent, specTableCommand]
      split_ifs <;> first | rfl | tauto
  | media m => cases m <;> rfl
  | _ => rfl

/-
The body of the input loop after an event is mapped, ui.rs lines
106-112: store 1 into VOLUME_TIMER when the message is a ChangeVolume,
then send the message on the channel.
-/

inductive ListenerAction
  | storeTimer (v : Nat)
  | send (m : Messages)
deriving DecidableEq

def handleMessage (m : Messages) : List ListenerAction :=
  (match m with
   | Messages.changeVolume _ => [ListenerAction.storeTimer 1]
   | _ => []) ++ [ListenerAction.send m]

/- Actions performed for one input event: nothing for ignored events,
otherwise the handler body above. -/
def eventActions (e : KeyEvent) : List ListenerAction :=
  match messageForEvent e with
  | none => []
  | some m => handleMessage m

/-- C5: for every event mapped to a ChangeVolume message the listener
stores 1 into the Volume Indicator Timer strictly before the send of
that message, and for events mapped to any other message the only
action is the send — the timer is not touched. -/
theorem c5_arm_before_send :
    (∀ (e : KeyEvent) (d : Int),
        messageForEvent e = some (Messages.changeVolume d) →
          eventActions e =
            [ListenerAction.storeTimer 1,
             ListenerAction.send (Messages.changeVolume d)]) ∧
    (∀ (e : KeyEvent) (m : Messages),
        messageForEvent e = some m → (∀ d : Int, m ≠ Messages.changeVolume d) →
          eventActions e = [ListenerAction.send m]) := by
  constructor
  · intro e d h
    unfold eventActions
    rw [h]
    rfl
  · intro e m h hm
    unfold eventActions
    rw [h]
    cases m with
    | changeVolume d => exact absurd rfl (hm d)
    | _ => rfl

/-- C5 witness: the arrow-up event arms then sends, and the quit key
event sends without touching the timer. -/
theorem c5_witness :
    eventActions ⟨KeyCode.up, noMods⟩ =
      [ListenerAction.storeTimer 1,
       ListenerAction.send (Messages.changeVolume 10)] ∧
    eventActions ⟨KeyCode.char 'q', noMods⟩ =
      [ListenerAction.send Messages.quit] :=
  ⟨c5_arm_before_send.1 ⟨KeyCode.up, noMods⟩ 10 rfl,
   c5_arm_before_send.2 ⟨KeyCode.char 'q', noMods⟩ Messages.quit (by decide)
     (fun d h => Messages.noConfusion h)⟩

/-
Width computation, ui.rs lines 125-128 and 135-138. Unsigned
subtraction is modelled as a checked subtraction: none marks an
underflow of the machine type (a panic in debug builds, a wrap to a
huge value in release builds), never a small width.
-/

def checkedSub (a b : Nat) : Option Nat :=
  if b ≤ a then some (a - b) else none

/- ui.rs lines 125-128: on a detected size with column count w the
width is (w - 4).clamp(0, MAX_WIDTH); on a detection error it is
FALLBACK_WIDTH. On Nat the clamp with lower bound 0 is the min with
MAX_WIDTH. -/
def targetWidth (detected : Option Nat) : Option Nat :=
  match detected with
  | some w => Option.map (fun d => min d MAX_WIDTH) (checkedSub w 4)
  | none => some FALLBACK_WIDTH

/- ui.rs lines 135-138: the argument passed to the middle-row
component is width - 16 for the progress bar (timer 0) and width - 17
for the audio bar (timer non-zero), again unsigned. -/
def middleWidthArg (detected : Option Nat) (timer : Nat) : Option Nat :=
  match targetWidth detected with
  | none => none
  | some width =>
      match timer with
      | 0 => checkedSub width 16
      | _ + 1 => checkedSub width 17

/-- C4: for every detected column count W with W ≥ 4 the target width
is clamp(W - 4, 0, 73) = min (W - 4) MAX_WIDTH, and on width-detection
failure it is the fallback 27. -/
theorem c4_width :
    (∀ w : Nat, 4 ≤ w → targetWidth (some w) = some (min (w - 4) MAX_WIDTH)) ∧
    targetWidth none = some FALLBACK_WIDTH := by
  constructor
  · intro w h
    simp [targetWidth, checkedSub, h]
  · rfl

/-- C4 witness: a 100-column terminal yields min 96 73 = 73, and
detection failure yields 27. -/
theorem c4_witness :
    targetWidth (some 100) = some (min (100 - 4) MAX_WIDTH) :=
  c4_width.1 100 (by decide)

/-- C9: the middle-row width arguments underflow for narrow
terminals. For a detected column count W between 4 and 19 the target
width is below 16, so both the progress-bar argument width - 16 and
the audio-bar argument width - 17 underflow; for W below 4 already
the initial W - 4 underflows; both arguments are defined whenever
W ≥ 21, and always under the 27-column fallback; at W = 20 the
progress-bar argument is defined but the audio-bar argument still
underflows, so the computation is total only for W ≥ 21 or on
detection failure. -/
theorem c9_narrow_underflow :
    (∀ (w t : Nat), 4 ≤ w → w ≤ 19 → middleWidthArg (some w) t = none) ∧
    (∀ w : Nat, w < 4 → targetWidth (some w) = none) ∧
    (∀ (w t : Nat), 21 ≤ w → (middleWidthArg (some w) t).isSome = true) ∧
    (∀ t : Nat, (middleWidthArg none t).isSome = true) ∧
    middleWidthArg (some 20) 0 = some 0 ∧
    middleWidthArg (some 20) 1 = none := by
  refine ⟨?_, ?_, ?_, ?_, by decide, by decide⟩
  · intro w t h1 h2
    have hw : targetWidth (some w) = some (w - 4) := by
      have hm : min (w - 4) MAX_WIDTH = w - 4 := by
        simp only [MAX_WIDTH]; omega
      simp [targetWidth, checkedSub, h1, hm]
    cases t with
    | zero =>
        simp only [middleWidthArg, hw, checkedSub]
        rw [if_neg (by omega)]
    | succ t =>
        simp only [middleWidthArg, hw, checkedSub]
        rw [if_neg (by omega)]
  · intro w h
    simp [targetWidth, checkedSub]
    omega
  · intro w t h
    have h4 : 4 ≤ w := by omega
    have hw : targetWidth (some w) = some (min (w - 4) MAX_WIDTH) := by
      simp [targetWidth, checkedSub, h4]
    have hmin : 17 ≤ min (w - 4) MAX_WIDTH := by
      simp only [MAX_WIDTH]; omega
    cases t with
    | zero =>
        simp only [middleWidthArg, hw, checkedSub]
        rw [if_pos (by omega)]
        rfl
    | succ t =>
        simp only [middleWidthArg, hw, checkedSub]
        rw [if_pos (by omega)]
        rfl
  · intro t
    cases t with
    | zero => rfl
    | succ t => rfl

/-- C9 witness: a 10-column terminal underflows the audio-bar
argument, a 3-column terminal underflows already at W - 4, and a
30-column terminal is safe on both paths. -/
theorem c9_witness :
    middleWidthArg (some 10) 5 = none ∧
    targetWidth (some 3) = none ∧
    (middleWidthArg (some 30) 1).isSome = true :=
  ⟨c9_narrow_underflow.1 10 5 (by decide) (by decide),
   c9_narrow_underflow.2.1 3 (by decide),
   c9_narrow_underflow.2.2.1 30 1 (by decide)⟩

/-
Environment teardown, ui.rs lines 185-238. Each terminal command
issued by ready/cleanup is one action; cleanup's body issues them in
source order, every one behind the ? operator.
-/

inductive TermAction
  | hideCursor
  | enterAlternateScreen
  | moveHome
  | enableRawMode
  | pushEnhancementFlags
  | leaveAlternateScreen
  | clearFromCursorDown
  | showCursor
  | popEnhancementFlags
  | disableRawMode
deriving DecidableEq

structure Environment where
  enhancement : Bool
  alternate : Bool
deriving DecidableEq

/- The steps cleanup issues in order when nothing fails, ui.rs lines
214-230 (the farewell print after them is not a terminal command and
is omitted). -/
def cleanupSteps (env : Environment) : List TermAction :=
  (if env.alternate then [TermAction.leaveAlternateScreen] else []) ++
  [TermAction.clearFromCursorDown, TermAction.showCursor] ++
  (if env.enhancement then [TermAction.popEnhancementFlags] else []) ++
  [TermAction.disableRawMode]

/- Run a step list under a failure oracle with ? semantics: a failing
step is attempted, its error is returned, and the remaining steps are
skipped. The first component is the list of attempted steps, the
second the early-returned error, if any. -/
def runSteps (fails : TermAction → Bool) :
    List TermAction → List TermAction × Option TermAction
  | [] => ([], none)
  | a :: rest =>
      if fails a then ([a], some a)
      else
        ((a :: (runSteps fails rest).1), (runSteps fails rest).2)

/- Environment::cleanup under a failure oracle. -/
def cleanupRun (env : Environment) (fails : TermAction → Bool) :
    List TermAction × Option TermAction :=
  runSteps fails (cleanupSteps env)

/-- C6 counterexample: with both the alternate screen entered and the
enhancement flag pushed, cleanup leaves the alternate screen before it
pops the enhancement flag, and its step sequence is not the claimed
pop-first sequence. -/
theorem c6_cleanup_counterexample :
    (cleanupSteps ⟨true, true⟩).indexOf TermAction.leaveAlternateScreen <
      (cleanupSteps ⟨true, true⟩).indexOf TermAction.popEnhancementFlags ∧
    (cleanupSteps ⟨true, true⟩ ==
      [TermAction.popEnhancementFlags, TermAction.leaveAlternateScreen,
       TermAction.clearFromCursorDown, TermAction.showCursor,
       TermAction.disableRawMode]) = false := by
  decide

/-- C6 amended: cleanup performs, in order, leave the alternate screen
(if it was entered), clear from the cursor down, show the cursor, pop
the keyboard-enhancement flag (if it was pushed), then disable raw
mode — which is not the reverse of the order in which ready applied
its changes. All four flag combinations are listed. -/
theorem c6_cleanup_amended :
    cleanupSteps ⟨true, true⟩ =
      [TermAction.leaveAlternateScreen, TermAction.clearFromCursorDown,
       TermAction.showCursor, TermAction.popEnhancementFlags,
       TermAction.disableRawMode] ∧
    cleanupSteps ⟨false, true⟩ =
      [TermAction.leaveAlternateScreen, TermAction.clearFromCursorDown,
       TermAction.showCursor, TermAction.disableRawMode] ∧
    cleanupSteps ⟨true, false⟩ =
      [TermAction.clearFromCursorDown, TermAction.showCursor,
       TermAction.popEnhancementFlags, TermAction.disableRawMode] ∧
    cleanupSteps ⟨false, false⟩ =
      [TermAction.clearFromCursorDown, TermAction.showCursor,
       TermAction.disableRawMode] := by
  decide

/- Helper lemmas about runSteps. -/

lemma runSteps_all_ok (fails : TermAction → Bool) :
    ∀ l : List TermAction, (∀ a ∈ l, fails a = false) →
      runSteps fails l = (l, none) := by
  intro l
  induction l with
  | nil => intro _; rfl
  | cons a rest ih =>
      intro h
      have ha : fails a = false := h a (List.mem_cons_self a rest)
      have hrest : ∀ b ∈ rest, fails b = false :=
        fun b hb => h b (List.mem_cons_of_mem a hb)
      simp [runSteps, ha, ih hrest]

lemma runSteps_error_fails (fails : TermAction → Bool) :
    ∀ (l : List TermAction) (a : TermAction),
      (runSteps fails l).2 = some a → fails a = true := by
  intro l
  induction l with
  | nil => intro a h; simp [runSteps] at h
  | cons b rest ih =>
      intro a h
      by_cases hb : fails b = true
      · simp [runSteps, hb] at h
        rw [← h]; exact hb
      · rw [Bool.not_eq_true] at hb
        simp [runSteps, hb] at h
        exact ih a h

lemma runSteps_stops_at_first (fails : TermAction → Bool) :
    ∀ (l : List TermAction) (a b : TermAction),
      (runSteps fails l).2 = some a → b ∈ (runSteps fails l).1 →
        fails b = true → b = a := by
  intro l
  induction l with
  | nil => intro a b h; simp [runSteps] at h
  | cons c rest ih =>
      intro a b h hb hfb
      by_cases hc : fails c = true
      · simp [runSteps, hc] at h hb
        rw [hb, h]
      · rw [Bool.not_eq_true] at hc
        simp [runSteps, hc] at h hb
        rcases hb with hb | hb
        · rw [hb] at hfb
          rw [hfb] at hc
          exact absurd hc (by simp)
        · exact ih a b h hb hfb

/-- C7 counterexample: with the alternate screen entered and the
enhancement flag pushed, if leaving the alternate screen fails then
cleanup attempts only that one step — it never shows the cursor, never
pops the flag, never disables raw mode — and it escalates the error to
its caller instead of swallowing it. -/
theorem c7_cleanup_counterexample :
    (cleanupRun ⟨true, true⟩
        (fun a => a == TermAction.leaveAlternateScreen)).1 =
      [TermAction.leaveAlternateScreen] ∧
    ((cleanupRun ⟨true, true⟩
        (fun a => a == TermAction.leaveAlternateScreen)).1.contains
      TermAction.showCursor) = false ∧
    ((cleanupRun ⟨true, true⟩
        (fun a => a == TermAction.leaveAlternateScreen)).1.contains
      TermAction.disableRawMode) = false ∧
    (cleanupRun ⟨true, true⟩
        (fun a => a == TermAction.leaveAlternateScreen)).2 =
      some TermAction.leaveAlternateScreen := by
  decide

/-- C7 amended: cleanup is not best-effort. When no step fails it runs
every step in order and returns no error; when a step fails it stops
there — the returned error names a failing step, and any failing step
among the attempted ones is exactly the one returned, so nothing after
the first failure is attempted — and the error is returned to the
caller (only the drop glue discards it). -/
theorem c7_cleanup_amended :
    (∀ (env : Environment) (fails : TermAction → Bool),
        (∀ a ∈ cleanupSteps env, fails a = false) →
          cleanupRun env fails = (cleanupSteps env, none)) ∧
    (∀ (env : Environment) (fails : TermAction → Bool) (a : TermAction),
        (cleanupRun env fails).2 = some a → fails a = true) ∧
    (∀ (env : Environment) (fails : TermAction → Bool) (a b : TermAction),
        (cleanupRun env fails).2 = some a → b ∈ (cleanupRun env fails).1 →
          fails b = true → b = a) :=
  ⟨fun env fails h => runSteps_all_ok fails (cleanupSteps env) h,
   fun env fails a h => runSteps_error_fails fails (cleanupSteps env) a h,
   fun env fails a b h hb hf =>
     runSteps_stops_at_first fails (cleanupSteps env) a b h hb hf⟩

/-- C7 witness: with no failures every step runs, and under the
oracle that fails leaving the alternate screen the returned error is
indeed a failing step. -/
theorem c7_witness :
    cleanupRun ⟨true, true⟩ (fun _ => false) =
      (cleanupSteps ⟨true, true⟩, none) ∧
    ((fun a => a == TermAction.leaveAlternateScreen)
        TermAction.leaveAlternateScreen) = true :=
  ⟨c7_cleanup_amended.1 ⟨true, true⟩ (fun _ => false) (fun a _ => rfl),
   c7_cleanup_amended.2.1 ⟨true, true⟩
     (fun a => a == TermAction.leaveAlternateScreen)
     TermAction.leaveAlternateScreen (by decide)⟩

/-
The input loop, ui.rs lines 58-114, run over a finite stream of read
results. A ReadItem.other covers everything the let-else at line 62
discards (non-key events, read errors, and an exhausted stream, each
of which makes the loop continue). sendOk says whether the n-th send
on the channel succeeds; a failed send makes the ? operator return
the error. The loop has no other exit, so over a finite stream the
outcome is either none (still looping) or some error; the first
component lists the messages sent successfully.
-/

inductive ReadItem
  | key (e : KeyEvent)
  | other
deriving DecidableEq

def inputRun (sendOk : Nat → Bool) :
    List ReadItem → Nat → List Messages × Option (Except Unit Unit)
  | [], _ => ([], none)
  | ReadItem.other :: rest, sends => inputRun sendOk rest sends
  | ReadItem.key e :: rest, sends =>
      match messageForEvent e with
      | none => inputRun sendOk rest sends
      | some m =>
          if sendOk sends then
            ((m :: (inputRun sendOk rest (sends + 1)).1),
             (inputRun sendOk rest (sends + 1)).2)
          else ([], some (Except.error ()))

lemma inputRun_no_ok (sendOk : Nat → Bool) :
    ∀ (evs : List ReadItem) (n : Nat),
      (inputRun sendOk evs n).2 = none ∨
        (inputRun sendOk evs n).2 = some (Except.error ()) := by
  intro evs
  induction evs with
  | nil => intro n; left; rfl
  | cons item rest ih =>
      intro n
      cases item with
      | other => simpa [inputRun] using ih n
      | key e =>
          rcases h : messageForEvent e with _ | m
          · simpa [inputRun, h] using ih n
          · by_cases hs : sendOk n = true
            · simpa [inputRun, h, hs] using ih (n + 1)
            · rw [Bool.not_eq_true] at hs
              right
              simp [inputRun, h, hs]

lemma inputRun_all_sends_ok (sendOk : Nat → Bool)
    (hok : ∀ k, sendOk k = true) :
    ∀ (evs : List ReadItem) (n : Nat), (inputRun sendOk evs n).2 = none := by
  intro evs
  induction evs with
  | nil => intro n; rfl
  | cons item rest ih =>
      intro n
      cases item with
      | other => simpa [inputRun] using ih n
      | key e =>
          rcases h : messageForEvent e with _ | m
          · simpa [inputRun, h] using ih n
          · simpa [inputRun, h, hok n] using ih (n + 1)

/-- C10: the input loop never returns successfully — over every finite
event stream its outcome is either still-looping or a send error, and
when every send succeeds it never exits at all; in particular a quit
key sends the Quit message and then continues with the rest of the
stream instead of breaking out of the loop. -/
theorem c10_input_never_returns :
    (∀ (sendOk : Nat → Bool) (evs : List ReadItem) (n : Nat),
        (inputRun sendOk evs n).2 = none ∨
          (inputRun sendOk evs n).2 = some (Except.error ())) ∧
    (∀ (sendOk : Nat → Bool) (evs : List ReadItem) (n : Nat),
        (∀ k, sendOk k = true) → (inputRun sendOk evs n).2 = none) ∧
    (∀ (rest : List ReadItem) (n : Nat),
        inputRun (fun _ => true)
            (ReadItem.key ⟨KeyCode.char 'q', noMods⟩ :: rest) n =
          ((Messages.quit ::
              (inputRun (fun _ => true) rest (n + 1)).1),
           (inputRun (fun _ => true) rest (n + 1)).2)) := by
  refine ⟨fun sendOk => inputRun_no_ok sendOk,
    fun sendOk evs n h => inputRun_all_sends_ok sendOk h evs n, ?_⟩
  intro rest n
  rfl

/-- C10 witness: with every send succeeding, a stream holding one
arrow-up key leaves the loop still running. -/
theorem c10_witness :
    (inputRun (fun _ => true) [ReadItem.key ⟨KeyCode.up, noMods⟩] 0).2 =
      none :=
  c10_input_never_returns.2.1 (fun _ => true)
    [ReadItem.key ⟨KeyCode.up, noMods⟩] 0 (fun _ => rfl)

/-
The orchestrator, ui.rs lines 244-263. Its control flow is determined
by the results of Environment::ready and of input: each sits behind a
? operator. When ready fails nothing else runs; when input returns an
error, start returns that error at once — the abort of the render-loop
task and the explicit cleanup call after it are skipped, and only the
Environment destructor's cleanup runs; the lines with the abort and
the explicit cleanup call run only when input returns Ok.
-/

inductive StartAction
  | readyEnv
  | spawnRenderLoop
  | runInput
  | abortRenderLoop
  | cleanupCall
  | dropCleanup
deriving DecidableEq

def startRun (readyResult inputResult : Except Unit Unit) :
    List StartAction × Except Unit Unit :=
  match readyResult with
  | Except.error e => ([StartAction.readyEnv], Except.error e)
  | Except.ok _ =>
      match inputResult with
      | Except.error e =>
          ([StartAction.readyEnv, StartAction.spawnRenderLoop,
            StartAction.runInput, StartAction.dropCleanup],
           Except.error e)
      | Except.ok _ =>
          ([StartAction.readyEnv, StartAction.spawnRenderLoop,
            StartAction.runInput, StartAction.abortRenderLoop,
            StartAction.cleanupCall, StartAction.dropCleanup],
           Except.ok ())

/-- C8 counterexample: when the input listener completes with a
command-delivery error — its only completion mode — start never aborts
the render-loop task and never reaches the explicit cleanup call; the
error propagates out and only the destructor's cleanup runs. -/
theorem c8_start_counterexample :
    ((startRun (Except.ok ()) (Except.error ())).1.contains
      StartAction.abortRenderLoop) = false ∧
    ((startRun (Except.ok ()) (Except.error ())).1.contains
      StartAction.cleanupCall) = false ∧
    ((startRun (Except.ok ()) (Except.error ())).1.contains
      StartAction.dropCleanup) = true ∧
    (startRun (Except.ok ()) (Except.error ())).2 = Except.error () :=
  ⟨rfl, rfl, rfl, rfl⟩

/-- C8 amended: start readies the Environment, spawns the render loop,
then runs the input listener; since the listener can only complete
with an error, start then propagates that error immediately — the
render-loop task is not aborted and the explicit cleanup call is
skipped, though cleanup still runs once through the Environment
destructor; the abort and the explicit cleanup call would run only on
the listener's unreachable successful return. -/
theorem c8_start_amended :
    startRun (Except.ok ()) (Except.error ()) =
      ([StartAction.readyEnv, StartAction.spawnRenderLoop,
        StartAction.runInput, StartAction.dropCleanup],
       Except.error ()) ∧
    startRun (Except.ok ()) (Except.ok ()) =
      ([StartAction.readyEnv, StartAction.spawnRenderLoop,
        StartAction.runInput, StartAction.abortRenderLoop,
        StartAction.cleanupCall, StartAction.dropCleanup],
       Except.ok ()) ∧
    (∀ (sendOk : Nat → Bool) (evs : List ReadItem) (n : Nat),
        (inputRun sendOk evs n).2 = none ∨
          (inputRun sendOk evs n).2 = some (Except.error ())) :=
  ⟨rfl, rfl, fun sendOk => inputRun_no_ok sendOk⟩

end Lowfi
